import Mathlib

/-!
Shallow embedding of the BitTorrent client (codecrafters-bittorrent-rust):
the peer-wire message codec (src/peer.rs), the handshake exchange
(src/handshake.rs) and the multi-peer download session with its shared
piece queue (src/worker.rs), together with theorems settling the frozen
claims about the natural-language specification.

Bytes are modelled as `Nat` (values < 256 on real inputs); buffers as
`List Nat`; fallible operations return `Option`/`Except`/explicit result
types.
-/

namespace BT

/-! ## Message codec (src/peer.rs) -/

/-- The nine message variants of src/peer.rs (constructor names kept
verbatim from the source, typos included). -/
inductive MessageType where
  | Choke
  | Unchode
  | Interested
  | NotIntereted
  | Have
  | Bitfield
  | Request
  | Piece
  | Cancel
deriving DecidableEq

/-- The discriminant of each variant (`item.id as u8` in the encoder,
matching the explicit `= 0 ..= 8` values of the Rust enum). -/
def MessageType.tag : MessageType → Nat
  | .Choke => 0
  | .Unchode => 1
  | .Interested => 2
  | .NotIntereted => 3
  | .Have => 4
  | .Bitfield => 5
  | .Request => 6
  | .Piece => 7
  | .Cancel => 8

/-- The decoder's tag dispatch (src/peer.rs lines 93-109): bytes 0-8 map
to the nine variants, anything else is an unknown-type error (`none`). -/
def msgTypeOfByte : Nat → Option MessageType
  | 0 => some .Choke
  | 1 => some .Unchode
  | 2 => some .Interested
  | 3 => some .NotIntereted
  | 4 => some .Have
  | 5 => some .Bitfield
  | 6 => some .Request
  | 7 => some .Piece
  | 8 => some .Cancel
  | _ => none

/-- A decoded peer message: id plus raw payload bytes (src/peer.rs
`struct Message`). -/
structure Message where
  id : MessageType
  payload : List Nat
deriving DecidableEq

/-- `Message::MAX = 1 << 16` (src/peer.rs line 41). -/
def Message.MAX : Nat := 1 <<< 16

/-- `u32::from_be_bytes` on the first four bytes of a buffer
(src/peer.rs lines 58-60). -/
def be32 (l : List Nat) : Nat :=
  l.getD 0 0 * 2 ^ 24 + l.getD 1 0 * 2 ^ 16 + l.getD 2 0 * 2 ^ 8 + l.getD 3 0

/-- `u32::to_le_bytes` (src/peer.rs line 141): least-significant byte
first. -/
def leBytes32 (n : Nat) : List Nat :=
  [n % 256, n / 2 ^ 8 % 256, n / 2 ^ 16 % 256, n / 2 ^ 24 % 256]

/-- Big-endian 4-byte encoding. This is what the spec says the encoder
writes ("a 4-byte big-endian length") and what the decoder's
`from_be_bytes` reads; stated here to compare with the source's
little-endian `leBytes32`. -/
def beBytes32 (n : Nat) : List Nat :=
  [n / 2 ^ 24 % 256, n / 2 ^ 16 % 256, n / 2 ^ 8 % 256, n % 256]

/-- The two error cases of `MessageFrame::decode`. -/
inductive DecodeErr where
  | frameTooLarge (len : Nat)
  | unknownType (tag : Nat)
deriving DecidableEq

/-- Result of one `MessageFrame::decode` call: `needMore` models
`Ok(None)`, `err` models `Err(..)`, `ok msg rest` models `Ok(Some(msg))`
with `rest` the buffer after `src.advance(4 + length)`. -/
inductive DecodeResult where
  | needMore
  | err (e : DecodeErr)
  | ok (msg : Message) (rest : List Nat)
deriving DecidableEq

/-- Body of `MessageFrame::decode` (src/peer.rs lines 49-123).  The Rust
code recurses on `self.decode(src)` after absorbing a zero-length
keepalive frame; each such step consumes 4 bytes, so recursion depth is
bounded by the buffer length and the structural `fuel` parameter (set to
`src.length` by the `MessageFrame.decode` wrapper) never runs out before
the source function would have returned. -/
def MessageFrame.decodeAux : Nat → List Nat → DecodeResult
  | 0, _ => .needMore
  | fuel + 1, src =>
    if src.length < 4 then .needMore
    else
      -- `u32::from_be_bytes(length_bytes) as usize`
      let length := be32 (src.take 4)
      if length = 0 then MessageFrame.decodeAux fuel (src.drop 4)
      else if src.length < 5 then .needMore
      else if length > Message.MAX then .err (.frameTooLarge length)
      else if src.length < 4 + length then .needMore
      else
        match msgTypeOfByte (src.getD 4 0) with
        | none => .err (.unknownType (src.getD 4 0))
        | some t =>
          let data := if src.length > 5 then (src.drop 5).take (length - 1) else []
          .ok ⟨t, data⟩ (src.drop (4 + length))

/-- `MessageFrame::decode` on the accumulated buffer `src`. -/
def MessageFrame.decode (src : List Nat) : DecodeResult :=
  MessageFrame.decodeAux src.length src

/-- The error case of `MessageFrame::encode`. -/
inductive EncodeErr where
  | frameTooLarge (len : Nat)
deriving DecidableEq

/-- `MessageFrame::encode` (src/peer.rs lines 129-151): the length guard
comes first and returns before anything is written; otherwise the buffer
is extended with `u32::to_le_bytes(payload.len() as u32 + 1)`, the tag
byte, and the payload.  Returns the error (if any) together with the
destination buffer after the call. -/
def MessageFrame.encode (item : Message) (dst : List Nat) :
    Option EncodeErr × List Nat :=
  if item.payload.length + 1 > Message.MAX then
    (some (.frameTooLarge (item.payload.length + 1)), dst)
  else
    (none, dst ++ leBytes32 (item.payload.length % 2 ^ 32 + 1) ++
      [item.id.tag] ++ item.payload)

/-! ## Handshake (src/handshake.rs) -/

/-- The 68-byte handshake record (src/handshake.rs `struct Handshake`). -/
structure Handshake where
  length : Nat
  protocol : List Nat
  reserved : List Nat
  info_hash : List Nat
  peer_id : List Nat
deriving DecidableEq

/-- ASCII bytes of `"BitTorrent protocol"`. -/
def protocolBytes : List Nat :=
  [66, 105, 116, 84, 111, 114, 114, 101, 110, 116, 32,
   112, 114, 111, 116, 111, 99, 111, 108]

/-- `Handshake::new` (src/handshake.rs lines 23-31). -/
def Handshake.new (info_hash peer_id : List Nat) : Handshake :=
  { length := 19
    protocol := protocolBytes
    reserved := List.replicate 8 0
    info_hash := info_hash
    peer_id := peer_id }

/-- `Handshake::as_bytes` (src/handshake.rs lines 33-41): the 68-byte
wire layout, fields in order. -/
def Handshake.as_bytes (h : Handshake) : List Nat :=
  [h.length] ++ h.protocol ++ h.reserved ++ h.info_hash ++ h.peer_id

/-- The one protocol error `Handshake::send` can raise after successful
I/O ("Mismatched info hash from handshake"). -/
inductive HandshakeErr where
  | infoHashMismatch
deriving DecidableEq

/-- The pure core of `Handshake::send` (src/handshake.rs lines 49-57),
given that connect, the 68-byte write and the 68-byte `read_exact` all
succeeded: `reply` is the buffer after the read.  The code compares
`handshake_bytes[28..48]` against `self.info_hash`; on mismatch it
returns an error (no connection), otherwise it overwrites `self.peer_id`
with `handshake_bytes[48..68]` and returns the connection together with
the mutated handshake value. -/
def Handshake.send (h : Handshake) (reply : List Nat) :
    Except HandshakeErr Handshake :=
  if (reply.drop 28).take 20 ≠ h.info_hash then
    .error .infoHashMismatch
  else
    .ok { h with peer_id := (reply.drop 48).take 20 }

/-! ## Piece and block bookkeeping (src/worker.rs, src/main.rs) -/

/-- `Worker::BLOCK_SIZE = 1 << 14` (src/worker.rs line 27). -/
def BLOCK_SIZE : Nat := 1 <<< 14

/-- `get_residual_size` (src/worker.rs lines 289-295). -/
def get_residual_size (index count length max_length : Nat) : Nat :=
  if index = count - 1 ∧ length % max_length ≠ 0 then
    length % max_length
  else
    max_length

/-- The inline block-size computation of `Worker::download_queue`
(src/worker.rs lines 201-211). -/
def blockSizeQ (block nBlocks pieceSize : Nat) : Nat :=
  if block = nBlocks - 1 then
    let base := pieceSize % BLOCK_SIZE
    if base = 0 then BLOCK_SIZE else base
  else BLOCK_SIZE

/-- The parsed payload of a Piece message, as used by the worker
(`piece.index`, `piece.begin`, `piece.piece`). -/
structure PieceData where
  index : Nat
  begin : Nat
  piece : List Nat
deriving DecidableEq

/-- Modelled from the spec: `Piece::load_from_payload` is referenced by
src/worker.rs and src/main.rs but the `Piece` struct itself is not in
src/ (src/peer.rs defines only the enum, `Message` and `MessageFrame`).
Per spec section 6, a Piece payload is `index(4, BE) + begin(4, BE) +
raw block bytes`; loading fails (`None`) when the payload is too short
to contain the two 4-byte fields. -/
def Piece.load_from_payload (payload : List Nat) : Option PieceData :=
  if payload.length < 8 then none
  else
    some
      { index := be32 (payload.take 4)
        begin := be32 ((payload.drop 4).take 4)
        piece := payload.drop 8 }

/-! ## PiecesQueue (src/worker.rs lines 297-317)

The Rust type is `Arc<Mutex<VecDeque<usize>>>`; each operation locks,
acts, unlocks, so the queue's behaviour is that of a plain `VecDeque`
operated on atomically.  It is modelled as a `List Nat` with the front
at the head. -/

/-- `PiecesQueue::new(pieces: Range<usize>)`: collect the range into the
deque. -/
def PiecesQueue.new (num_pieces : Nat) : List Nat := List.range num_pieces

/-- `PiecesQueue::take_piece`: `pop_front`. -/
def PiecesQueue.take_piece : List Nat → Option (Nat × List Nat)
  | [] => none
  | i :: q => some (i, q)

/-- `PiecesQueue::push_piece`: `push_back`. -/
def PiecesQueue.push_piece (q : List Nat) (i : Nat) : List Nat := q ++ [i]

/-! ## The download session (`Worker::download_queue`, src/worker.rs
lines 147-287)

The network is abstracted as an oracle `net : Nat → NetEvent` giving,
for the k-th block iteration, the outcome of that iteration's
`frame.send(..)` / `frame.next()` pair.  SHA1 is abstracted as a
configuration field `sha1`, and the torrent metadata (`plength`,
`file_length()`, the per-piece hash list) as plain fields. -/

/-- Outcome of one block iteration's I/O:
`sendErr` — `frame.send(..)` returns `Err`;
`readFail` — send succeeds, `frame.next()` yields `None` or `Some(Err)`
(both take the `let Some(Ok(piece)) .. else` branch);
`msg p` — send succeeds and a message with payload `p` arrives (the
worker never inspects the tag of the response: the
`assert_eq!(piece.tag, Tag::Piece)` line is commented out). -/
inductive NetEvent where
  | sendErr
  | readFail
  | msg (payload : List Nat)

/-- Torrent/session configuration shared by `Worker::download_queue`:
`plength` and `fileLen` from the metadata, `hashes` the per-piece
20-byte SHA1 list (`info.pieces`), and `sha1` the abstract hash
function applied to the reassembled piece bytes. -/
structure SessionCfg where
  plength : Nat
  fileLen : Nat
  hashes : List (List Nat)
  sha1 : List Nat → List Nat

/-- `info.pieces.num_pieces()`: the number of 20-byte hashes. -/
def SessionCfg.num_pieces (cfg : SessionCfg) : Nat := cfg.hashes.length

/-- The piece-size computation of `Worker::download_queue`
(src/worker.rs lines 176-186): the last piece gets
`file_len % plength` unless that remainder is zero. -/
def pieceSizeQ (cfg : SessionCfg) (piece_i : Nat) : Nat :=
  if piece_i = cfg.num_pieces - 1 then
    let base_len := cfg.fileLen % cfg.plength
    if base_len = 0 then cfg.plength else base_len
  else cfg.plength

/-- How the `for block in 0..n_blocks` loop of `Worker::download_queue`
ends:
`ok data k` — all blocks validated and appended;
`failStart k` — a failure that runs `queue.push_piece(piece_i);
break 'start` (send error, empty payload, unparsable payload, or
index/begin/length mismatch);
`failInner data k` — `frame.next()` yielded no message: the code runs
`queue.push_piece(piece_i); break`, leaving the plain `for` loop and
falling through to the post-loop checks with the data gathered so far.
`k` is the advanced network-oracle cursor. -/
inductive LoopExit where
  | ok (data : List Nat) (k : Nat)
  | failStart (k : Nat)
  | failInner (data : List Nat) (k : Nat)

/-- The block loop of `Worker::download_queue` (src/worker.rs lines
200-259), structurally recursing on the number of remaining blocks
(`rem` starts at `nBlocks`, `block` at 0). -/
def blockLoop (net : Nat → NetEvent) (piece_i pieceSize nBlocks : Nat) :
    Nat → Nat → Nat → List Nat → LoopExit
  | 0, _, k, data => .ok data k
  | rem + 1, block, k, data =>
    let block_size := blockSizeQ block nBlocks pieceSize
    match net k with
    | .sendErr => .failStart (k + 1)
    | .readFail => .failInner data (k + 1)
    | .msg payload =>
      if payload.isEmpty then .failStart (k + 1)
      else
        match Piece.load_from_payload payload with
        | none => .failStart (k + 1)
        | some p =>
          if p.index ≠ piece_i ∨ p.begin ≠ block * BLOCK_SIZE ∨
              p.piece.length ≠ block_size then
            .failStart (k + 1)
          else
            blockLoop net piece_i pieceSize nBlocks rem (block + 1) (k + 1)
              (data ++ p.piece)

/-- The whole block loop of one piece attempt: `n_blocks =
(piece_size + (BLOCK_SIZE - 1)) / BLOCK_SIZE` (src/worker.rs line 194),
then the `for` loop from block 0 with empty data. -/
def attemptPiece (cfg : SessionCfg) (net : Nat → NetEvent)
    (piece_i k : Nat) : LoopExit :=
  let pieceSize := pieceSizeQ cfg piece_i
  let nBlocks := (pieceSize + (BLOCK_SIZE - 1)) / BLOCK_SIZE
  blockLoop net piece_i pieceSize nBlocks nBlocks 0 k []

/-- How `Worker::download_queue`'s `'start: loop` ended:
`drained` — `take_piece` returned `None` ("no more pieces, exiting");
`aborted` — some `break 'start` ran;
`fuelOut` — the model's fuel was exhausted (never reached in the runs
below). -/
inductive ExitKind where
  | drained
  | aborted
  | fuelOut
deriving DecidableEq

/-- The outer `'start: loop` of `Worker::download_queue` (src/worker.rs
lines 164-283).  Returns the `(piece_i, piece_data)` results sent on the
completion channel in order, the final queue contents, and how the loop
ended.  After the block loop, the code checks `piece_data.len() !=
piece_size`, hashes, compares against the expected piece hash, and on
success sends the result and continues; every failure runs
`queue.push_piece(piece_i)` followed by `break 'start`.  In the
`failInner` case the queue has already received one `push_piece` inside
the loop and the post-loop checks still run.  (The `try_into()` on the
SHA1 output always succeeds for a 20-byte digest, so its error arm is
not modelled.) -/
def sessionLoop (cfg : SessionCfg) (net : Nat → NetEvent) :
    Nat → List Nat → Nat → List (Nat × List Nat) × List Nat × ExitKind
  | 0, q, _ => ([], q, .fuelOut)
  | fuel + 1, q, k =>
    match PiecesQueue.take_piece q with
    | none => ([], q, .drained)
    | some (piece_i, q') =>
      let piece_hash := cfg.hashes.getD piece_i []
      let pieceSize := pieceSizeQ cfg piece_i
      match attemptPiece cfg net piece_i k with
      | .failStart _ => ([], PiecesQueue.push_piece q' piece_i, .aborted)
      | .failInner data k' =>
        let q1 := PiecesQueue.push_piece q' piece_i
        if data.length ≠ pieceSize then
          ([], PiecesQueue.push_piece q1 piece_i, .aborted)
        else if cfg.sha1 data ≠ piece_hash then
          ([], PiecesQueue.push_piece q1 piece_i, .aborted)
        else
          let r := sessionLoop cfg net fuel q1 k'
          ((piece_i, data) :: r.1, r.2)
      | .ok data k' =>
        if data.length ≠ pieceSize then
          ([], PiecesQueue.push_piece q' piece_i, .aborted)
        else if cfg.sha1 data ≠ piece_hash then
          ([], PiecesQueue.push_piece q' piece_i, .aborted)
        else
          let r := sessionLoop cfg net fuel q' k'
          ((piece_i, data) :: r.1, r.2)

/-- `True` (as a `Bool`) when the attempt at `piece_i` starting at
network cursor `k` fails: the block loop aborts, or the reassembled data
fails the length check, or its hash differs from the expected one.
These are exactly the conditions under which `Worker::download_queue`
runs a failure path for this piece. -/
def pieceAttemptFails (cfg : SessionCfg) (net : Nat → NetEvent)
    (piece_i k : Nat) : Bool :=
  let pieceSize := pieceSizeQ cfg piece_i
  let piece_hash := cfg.hashes.getD piece_i []
  match attemptPiece cfg net piece_i k with
  | .failStart _ => true
  | .failInner data _ =>
    decide (data.length ≠ pieceSize) || decide (cfg.sha1 data ≠ piece_hash)
  | .ok data _ =>
    decide (data.length ≠ pieceSize) || decide (cfg.sha1 data ≠ piece_hash)

/-! ## Concrete sessions used by the claim theorems -/

/-- A two-piece torrent with piece length 2 and trivial (always
matching) hashes: every 2-byte block whose index/begin fields are right
verifies. -/
def cfgA : SessionCfg :=
  { plength := 2, fileLen := 4, hashes := [[], []], sha1 := fun _ => [] }

/-- A peer whose every read fails (`frame.next()` yields nothing). -/
def netFail : Nat → NetEvent := fun _ => .readFail

/-- A peer whose first read fails but that afterwards serves a correct
2-byte block for piece 1 (index 1, begin 0, two data bytes). -/
def netC3 : Nat → NetEvent := fun k =>
  if k = 0 then .readFail
  else .msg ([0, 0, 0, 1] ++ [0, 0, 0, 0] ++ [9, 9])

/-! ## Claim theorems -/

/-- C1: the round-trip `decode(encode(m)) = m` FAILS on the code, shown
here at the failing input `m = Message { id: Choke, payload: [] }`:
`encode` succeeds and writes the length field with `u32::to_le_bytes`
(`[1, 0, 0, 0]`), but `decode` reads it with `u32::from_be_bytes`,
obtaining `16777216 > 65536`, and raises the oversized-frame error
instead of returning `m`. -/
theorem roundtrip_fails_at_choke :
    (MessageFrame.encode ⟨.Choke, []⟩ []).1 = none ∧
    MessageFrame.decode (MessageFrame.encode ⟨.Choke, []⟩ []).2 =
      .err (.frameTooLarge 16777216) := by decide

/-- C2: evaluated at `Message { id: Choke, payload: [] }` with an empty
destination buffer, `encode` appends `[1, 0, 0, 0, 0]`: a LITTLE-endian
length field followed by the tag, not the big-endian `[0, 0, 0, 1]` the
claim (and the decoder's `from_be_bytes`) requires. -/
theorem encode_writes_little_endian_length :
    (MessageFrame.encode ⟨.Choke, []⟩ []).2 = [1, 0, 0, 0, 0] ∧
    beBytes32 1 = [0, 0, 0, 1] ∧
    (MessageFrame.encode ⟨.Choke, []⟩ []).2.take 4 ≠ beBytes32 1 := by decide

/-- C6 counterexample: the buffer `[0, 1, 0, 1]` is exactly 4 bytes and
its big-endian length field reads 65537 > 65536, yet `decode` returns
the need-more-data signal, not the oversized-frame error: the
`src.len() < 5` early return (src/peer.rs line 67) precedes the size
check, refuting the claim's "including a buffer of exactly 4 bytes". -/
theorem decode_oversized_4byte_needMore :
    be32 [0, 1, 0, 1] = 65537 ∧ Message.MAX < 65537 ∧
    MessageFrame.decode [0, 1, 0, 1] = .needMore := by decide

/-- Helper for the oversized-frame theorem, stated for any positive
fuel. -/
theorem decodeAux_oversized (fuel : Nat) (src : List Nat) (L : Nat)
    (h5 : 5 ≤ src.length) (henc : be32 (src.take 4) = L)
    (hL : Message.MAX < L) :
    MessageFrame.decodeAux (fuel + 1) src = .err (.frameTooLarge L) := by
  have hmax : Message.MAX = 65536 := rfl
  unfold MessageFrame.decodeAux
  rw [if_neg (by omega)]
  simp only [henc]
  rw [if_neg (by omega), if_neg (by omega), if_pos (by omega)]

/-- C6 (amended): for every buffer of at least 5 bytes whose first four
bytes are a big-endian length prefix L with L > 65536, decode fails with
the oversized-frame error, whatever the remaining bytes contain; a
buffer of exactly 4 bytes instead signals need-more-data. -/
theorem decode_oversized_errors (src : List Nat) (L : Nat)
    (h5 : 5 ≤ src.length) (henc : be32 (src.take 4) = L)
    (hL : Message.MAX < L) :
    MessageFrame.decode src = .err (.frameTooLarge L) := by
  have hlen : src.length - 1 + 1 = src.length := by omega
  unfold MessageFrame.decode
  rw [← hlen]
  exact decodeAux_oversized (src.length - 1) src L h5 henc hL

/-- Witness for C6's amended theorem at the concrete buffer
`[0, 1, 0, 1, 0]` (length prefix 65537). -/
theorem decode_oversized_errors_witness :
    5 ≤ ([0, 1, 0, 1, 0] : List Nat).length ∧
    be32 (([0, 1, 0, 1, 0] : List Nat).take 4) = 65537 ∧
    Message.MAX < 65537 ∧
    MessageFrame.decode [0, 1, 0, 1, 0] = .err (.frameTooLarge 65537) :=
  ⟨by decide, by decide, by decide,
    decode_oversized_errors [0, 1, 0, 1, 0] 65537 (by decide) (by decide)
      (by decide)⟩

/-- Helper for the partial-buffer theorem, stated for any fuel. -/
theorem decodeAux_partial (fuel : Nat) (src : List Nat) (L : Nat)
    (hL : L ≤ Message.MAX) (hshort : src.length < 4 + L)
    (henc : 4 ≤ src.length → be32 (src.take 4) = L) :
    MessageFrame.decodeAux fuel src = .needMore := by
  have hmax : Message.MAX = 65536 := rfl
  cases fuel with
  | zero => rfl
  | succ f =>
    unfold MessageFrame.decodeAux
    by_cases h4 : src.length < 4
    · rw [if_pos h4]
    · rw [if_neg h4]
      simp only [henc (by omega)]
      rw [if_neg (by omega)]
      by_cases h5 : src.length < 5
      · rw [if_pos h5]
      · rw [if_neg h5, if_neg (by omega), if_pos (by omega)]

/-- C7: for any length prefix L with L ≤ 65536 and any buffer shorter
than 4+L bytes whose first 4 bytes (when present) encode L big-endian,
decode returns the need-more-data signal and never an error, whatever
the buffered bytes contain. -/
theorem decode_partial_buffer_needMore (src : List Nat) (L : Nat)
    (hL : L ≤ Message.MAX) (hshort : src.length < 4 + L)
    (henc : 4 ≤ src.length → be32 (src.take 4) = L) :
    MessageFrame.decode src = .needMore :=
  decodeAux_partial src.length src L hL hshort henc

/-- Witness for C7 at the concrete 5-byte buffer `[0, 0, 1, 0, 5]`
(length prefix 256, needing 260 bytes). -/
theorem decode_partial_buffer_needMore_witness :
    256 ≤ Message.MAX ∧ ([0, 0, 1, 0, 5] : List Nat).length < 4 + 256 ∧
    MessageFrame.decode [0, 0, 1, 0, 5] = .needMore :=
  ⟨by decide, by decide,
    decode_partial_buffer_needMore [0, 0, 1, 0, 5] 256 (by decide)
      (by decide) (fun _ => by decide)⟩

/-- C9: for every message whose `payload.length + 1` exceeds 65536,
encode returns an error and the destination buffer is exactly what it
was before the call: the length guard is the first statement of
`MessageFrame::encode` and returns before anything is written. -/
theorem encode_rejects_oversized_payload (m : Message) (dst : List Nat)
    (h : Message.MAX < m.payload.length + 1) :
    MessageFrame.encode m dst =
      (some (.frameTooLarge (m.payload.length + 1)), dst) := by
  unfold MessageFrame.encode
  rw [if_pos h]

/-- A message one byte past the encoder's size limit. -/
def bigMsg : Message := ⟨.Choke, List.replicate Message.MAX 0⟩

/-- Witness for C9 at a concrete 65536-byte payload. -/
theorem encode_rejects_oversized_payload_witness :
    Message.MAX < bigMsg.payload.length + 1 ∧
    MessageFrame.encode bigMsg [] =
      (some (.frameTooLarge (bigMsg.payload.length + 1)), []) := by
  have hlen : bigMsg.payload.length = Message.MAX :=
    List.length_replicate _ _
  have h : Message.MAX < bigMsg.payload.length + 1 := by
    rw [hlen]
    exact Nat.lt_succ_self _
  exact ⟨h, encode_rejects_oversized_payload bigMsg [] h⟩

/-- C8: given that connect, the 68-byte write and the 68-byte read all
succeed, `Handshake::send` fails (returning no connection) if and only
if bytes 28-48 of the remote's reply differ from the info hash that was
sent; no other byte of the reply (length, protocol string, reserved
bytes, peer id) is inspected by the validation, so none can cause a
failure — the reply is universally quantified. -/
theorem handshake_error_iff_infohash_mismatch (h : Handshake)
    (reply : List Nat) (hlen : reply.length = 68) :
    Handshake.send h reply = .error .infoHashMismatch ↔
      (reply.drop 28).take 20 ≠ h.info_hash := by
  unfold Handshake.send
  by_cases hc : (reply.drop 28).take 20 ≠ h.info_hash
  · rw [if_pos hc]
    simp [hc]
  · rw [if_neg hc]
    simp [hc]

/-- Witness for C8: an all-zero 68-byte reply against an all-ones info
hash. -/
theorem handshake_error_iff_infohash_mismatch_witness :
    (List.replicate 68 0 : List Nat).length = 68 ∧
    (Handshake.send (Handshake.new (List.replicate 20 1) (List.replicate 20 2))
        (List.replicate 68 0) = .error .infoHashMismatch ↔
      ((List.replicate 68 0 : List Nat).drop 28).take 20 ≠
        (Handshake.new (List.replicate 20 1) (List.replicate 20 2)).info_hash) :=
  ⟨by simp, handshake_error_iff_infohash_mismatch _ _ (by simp)⟩

/-- C10: on every successful call, `Handshake::send` overwrites the
handshake's `peer_id` field with bytes 48-68 of the remote's reply while
`length`, `protocol`, `reserved` and `info_hash` are unchanged. -/
theorem handshake_send_overwrites_peer_id (h h' : Handshake)
    (reply : List Nat) (hlen : reply.length = 68)
    (hok : Handshake.send h reply = .ok h') :
    h'.peer_id = (reply.drop 48).take 20 ∧ h'.length = h.length ∧
    h'.protocol = h.protocol ∧ h'.reserved = h.reserved ∧
    h'.info_hash = h.info_hash := by
  unfold Handshake.send at hok
  by_cases hc : (reply.drop 28).take 20 ≠ h.info_hash
  · rw [if_pos hc] at hok
    exact absurd hok (by simp)
  · rw [if_neg hc] at hok
    injection hok with hx
    subst hx
    simp

/-- The local handshake used by the C10 witness: info hash all zeroes,
local peer id all twos. -/
def hsA : Handshake := Handshake.new (List.replicate 20 0) (List.replicate 20 2)

/-- The handshake value after `send` succeeds against an all-zero reply:
`peer_id` has become the reply's bytes 48-68 (all zeroes). -/
def hsB : Handshake :=
  { length := 19, protocol := protocolBytes, reserved := List.replicate 8 0,
    info_hash := List.replicate 20 0, peer_id := List.replicate 20 0 }

/-- Witness for C10: a successful send against an all-zero 68-byte
reply rewrites `peer_id` from all twos to all zeroes and leaves the
other fields alone. -/
theorem handshake_send_overwrites_peer_id_witness :
    (List.replicate 68 0 : List Nat).length = 68 ∧
    Handshake.send hsA (List.replicate 68 0) = .ok hsB ∧
    (hsB.peer_id = ((List.replicate 68 0 : List Nat).drop 48).take 20 ∧
     hsB.length = hsA.length ∧ hsB.protocol = hsA.protocol ∧
     hsB.reserved = hsA.reserved ∧ hsB.info_hash = hsA.info_hash) :=
  ⟨by simp, by rfl,
    handshake_send_overwrites_peer_id hsA hsB (List.replicate 68 0)
      (by simp) (by rfl)⟩

/-- C5 counterexample: for a piece of size 175712 the code's last-block
size (block 10 of 11) is `175712 mod 16384 = 11872`, not the 8416 the
claim states — both in `get_residual_size` and in the session's inline
computation. -/
theorem last_block_size_not_8416 :
    get_residual_size 10 11 175712 BLOCK_SIZE = 11872 ∧
    blockSizeQ 10 11 175712 = 11872 ∧
    ¬ get_residual_size 10 11 175712 BLOCK_SIZE = 8416 := by decide

/-- C5 (amended): for a piece of size 175712 the session computes block
count `ceil(175712/16384) = 11`, blocks 0 through 9 each of size 16384,
and the last block (block 10) of size `175712 mod 16384 = 11872`. -/
theorem block_sizing_175712 :
    (175712 + (BLOCK_SIZE - 1)) / BLOCK_SIZE = 11 ∧
    ((List.range 10).all fun b =>
      get_residual_size b 11 175712 BLOCK_SIZE == 16384 &&
      blockSizeQ b 11 175712 == 16384) = true ∧
    get_residual_size 10 11 175712 BLOCK_SIZE = 11872 ∧
    blockSizeQ 10 11 175712 = 11872 ∧
    175712 % BLOCK_SIZE = 11872 := by decide

/-- C3 counterexample: on the two-piece queue `[0, 1]` against a peer
whose first read fails but that would then serve piece 1 correctly
(`pieceAttemptFails .. 1 1 = false`), the session requeues piece 0 and
exits its loop at once (`aborted`, no results, piece 1 still queued —
requeued piece 0 even appears twice), instead of proceeding to request
piece 1 as the claim states. -/
theorem session_terminates_after_failed_piece :
    pieceAttemptFails cfgA netC3 0 0 = true ∧
    pieceAttemptFails cfgA netC3 1 1 = false ∧
    sessionLoop cfgA netC3 3 [0, 1] 0 = ([], [1, 0, 0], .aborted) := by decide

/-- C3 (amended): whenever a piece attempt fails inside a session (block
loop aborts, reassembled length is wrong, or the hash mismatches), the
session returns that piece index to the shared queue and then
terminates its download loop with no further results, rather than
proceeding to its next piece. -/
theorem session_failure_requeues_then_exits (cfg : SessionCfg)
    (net : Nat → NetEvent) (fuel piece_i k : Nat) (q : List Nat)
    (hfail : pieceAttemptFails cfg net piece_i k = true) :
    (sessionLoop cfg net (fuel + 1) (piece_i :: q) k).1 = [] ∧
    piece_i ∈ (sessionLoop cfg net (fuel + 1) (piece_i :: q) k).2.1 ∧
    (sessionLoop cfg net (fuel + 1) (piece_i :: q) k).2.2 = .aborted := by
  unfold pieceAttemptFails at hfail
  cases hb : attemptPiece cfg net piece_i k with
  | failStart k' =>
    simp only [sessionLoop, PiecesQueue.take_piece, hb, PiecesQueue.push_piece]
    simp
  | failInner data k' =>
    rw [hb] at hfail
    simp only [Bool.or_eq_true, decide_eq_true_eq] at hfail
    simp only [sessionLoop, PiecesQueue.take_piece, hb, PiecesQueue.push_piece]
    by_cases hlen : data.length ≠ pieceSizeQ cfg piece_i
    · rw [if_pos hlen]
      simp
    · rw [if_neg hlen]
      have hh : cfg.sha1 data ≠ cfg.hashes.getD piece_i [] := by tauto
      rw [if_pos hh]
      simp
  | ok data k' =>
    rw [hb] at hfail
    simp only [Bool.or_eq_true, decide_eq_true_eq] at hfail
    simp only [sessionLoop, PiecesQueue.take_piece, hb, PiecesQueue.push_piece]
    by_cases hlen : data.length ≠ pieceSizeQ cfg piece_i
    · rw [if_pos hlen]
      simp
    · rw [if_neg hlen]
      have hh : cfg.sha1 data ≠ cfg.hashes.getD piece_i [] := by tauto
      rw [if_pos hh]
      simp

/-- Witness for C3's amended theorem: a read failure at piece 0 in front
of queue `[0, 5]` requeues 0 and aborts. -/
theorem session_failure_requeues_then_exits_witness :
    pieceAttemptFails cfgA netFail 0 0 = true ∧
    ((sessionLoop cfgA netFail 2 [0, 5] 0).1 = [] ∧
     0 ∈ (sessionLoop cfgA netFail 2 [0, 5] 0).2.1 ∧
     (sessionLoop cfgA netFail 2 [0, 5] 0).2.2 = .aborted) :=
  ⟨by decide,
    session_failure_requeues_then_exits cfgA netFail 1 0 0 [5] (by decide)⟩

/-- C4: on the single-piece queue `[0]`, a read failure at block 0 makes
`Worker::download_queue` push index 0 TWICE — once in the
`frame.next()`-failure branch (src/worker.rs line 233) and once more at
the fall-through incomplete-data check (line 262) — so the final queue
is `[0, 0]`, holding the same pending index twice and violating the
claimed at-most-once invariant. -/
theorem queue_double_push_on_read_failure :
    sessionLoop cfgA netFail 2 [0] 0 = ([], [0, 0], .aborted) ∧
    (sessionLoop cfgA netFail 2 [0] 0).2.1.count 0 = 2 := by decide

end BT
